import Mathlib

/-!
Verification of the kntp library core (`src/kntp/core.py`, with the duplicate
copy `kntp-lib.py`): NTP response validation, four-timestamp offset/delay
arithmetic, sampling/aggregation, ranking and recommendation.

Numbers are modelled exactly: Python floats are rational values, so sample
arithmetic lives in `ℚ`; the only irrational-producing operation,
`statistics.pstdev`'s square root, lives in `ℝ`.  Response buffers are lists
of byte values.  The network is modelled as an oracle assigning each
(round, server) query attempt an outcome: a successful `Sample`, a classified
failure (the exception kinds caught in `collect_stats`), or an unclassified
error (any other exception).
-/

namespace Kntp

/-- Seconds between the 1900-01-01 NTP epoch and the 1970-01-01 Unix epoch
(`NTP_DELTA` in `core.py`). -/
def NTP_DELTA : ℚ := 2208988800

/-- One successful measurement (`Sample` in `core.py`). -/
structure Sample where
  offset_ms : ℚ
  delay_ms : ℚ
deriving DecidableEq, Repr

/-- Per-server statistics (`Stats` in `core.py`), polymorphic in the numeric
type: `ℝ` for aggregation output (whose standard deviations involve a square
root), `ℚ` for the ranking input domain. -/
structure Stats (α : Type) where
  server : String
  ok : Nat
  fail : Nat
  avg_offset_ms : α
  std_offset_ms : α
  avg_delay_ms : α
  std_delay_ms : α
deriving DecidableEq, Repr

/-- Ranking result relative to the base server (`Ranked` in `core.py`). -/
structure Ranked where
  server : String
  ok : Nat
  fail : Nat
  avg_offset_ms : ℚ
  std_offset_ms : ℚ
  avg_delay_ms : ℚ
  std_delay_ms : ℚ
  vs_base_ms : ℚ
  score : ℚ
  grade : String
deriving DecidableEq, Repr

/-- `grade` in `core.py`: letter grade from a score (A is best). -/
def grade (score : ℚ) : String :=
  if score ≤ 5 then "A"
  else if score ≤ 10 then "B"
  else if score ≤ 20 then "C"
  else "D"

/-- `_system_to_ntp` in `core.py`. -/
def _system_to_ntp (ts_unix : ℚ) : ℚ := ts_unix + NTP_DELTA

/-- `_ntp_to_system` in `core.py`. -/
def _ntp_to_system (ts_ntp : ℚ) : ℚ := ts_ntp - NTP_DELTA

/-- Byte `i` of a response buffer (Python `data[i]`; only used at indices
below the checked length). -/
def byteAt (data : List Nat) (i : Nat) : Nat := data.getD i 0

/-- Big-endian 32-bit word `j` of the buffer: bytes `4j .. 4j+3`
(`struct.unpack("!12I", data[:48])` entry `u[j]` in `core.py`). -/
def ntpWord (data : List Nat) (j : Nat) : Nat :=
  2 ^ 24 * byteAt data (4 * j) + 2 ^ 16 * byteAt data (4 * j + 1) +
    2 ^ 8 * byteAt data (4 * j + 2) + byteAt data (4 * j + 3)

/-- `_validate_ntp_response` in `core.py`: rejects short buffers, wrong mode,
leap-alarm, zero stratum and an originate timestamp (bytes 24-31, two
big-endian words) that differs from the `(req_sec, req_frac)` the request
sent.  Raising `NTPResponseError` is modelled as `Except.error`. -/
def _validate_ntp_response (data : List Nat) (req_sec req_frac : Nat) :
    Except String Unit :=
  if data.length < 48 then .error "NTP response too short"
  else
    let li_vn_mode := byteAt data 0
    let leap := li_vn_mode / 64 % 4
    let mode := li_vn_mode % 8
    let stratum := byteAt data 1
    if mode ≠ 4 then .error "Invalid NTP mode in response"
    else if leap = 3 then .error "NTP server clock unsynchronized (LI=3)"
    else if stratum = 0 then
      .error "NTP Kiss-o-Death or unspecified stratum (stratum=0)"
    else if (ntpWord data 6, ntpWord data 7) ≠ (req_sec, req_frac) then
      .error "NTP originate timestamp mismatch"
    else .ok ()

/-- The pure tail of `query_ntp` in `core.py`, as a function of the received
response bytes, the local send/receive times `t1`/`t4` and the originate
`(req_sec, req_frac)` the request sent: validate, decode `T2` (words 8,9)
and `T3` (words 10,11), and compute the four-timestamp delay/offset sample. -/
def query_ntp_pure (data : List Nat) (t1 t4 : ℚ) (req_sec req_frac : Nat) :
    Except String Sample :=
  match _validate_ntp_response data req_sec req_frac with
  | .error e => .error e
  | .ok _ =>
    let t2_ntp : ℚ := (ntpWord data 8 : ℚ) + (ntpWord data 9 : ℚ) / 2 ^ 32
    let t3_ntp : ℚ := (ntpWord data 10 : ℚ) + (ntpWord data 11 : ℚ) / 2 ^ 32
    let t2 := _ntp_to_system t2_ntp
    let t3 := _ntp_to_system t3_ntp
    let delay := (t4 - t1) - (t3 - t2)
    let offset := ((t2 - t1) + (t3 - t4)) / 2
    .ok { offset_ms := offset * 1000, delay_ms := delay * 1000 }

/-- The pure tail of `query_ntp` in `kntp-lib.py` (the duplicate copy): only a
length check, no mode/leap/stratum/originate validation. -/
def query_ntp_lib (data : List Nat) (t1 t4 : ℚ) : Except String Sample :=
  if data.length < 48 then .error "NTP response too short"
  else
    let t2_ntp : ℚ := (ntpWord data 8 : ℚ) + (ntpWord data 9 : ℚ) / 2 ^ 32
    let t3_ntp : ℚ := (ntpWord data 10 : ℚ) + (ntpWord data 11 : ℚ) / 2 ^ 32
    let t2 := _ntp_to_system t2_ntp
    let t3 := _ntp_to_system t3_ntp
    let delay := (t4 - t1) - (t3 - t2)
    let offset := ((t2 - t1) + (t3 - t4)) / 2
    .ok { offset_ms := offset * 1000, delay_ms := delay * 1000 }

instance {ε α : Type} [DecidableEq ε] [DecidableEq α] : DecidableEq (Except ε α) := fun a b =>
  match a, b with
  | .error e, .error f =>
    if h : e = f then isTrue (by rw [h]) else isFalse (by simp [h])
  | .error _, .ok _ => isFalse (by simp)
  | .ok _, .error _ => isFalse (by simp)
  | .ok x, .ok y =>
    if h : x = y then isTrue (by rw [h]) else isFalse (by simp [h])

lemma exists_error_iff_ne_ok (r : Except String Unit) :
    (∃ e, r = Except.error e) ↔ r ≠ Except.ok () := by
  cases r with
  | error e => simp
  | ok u => cases u; simp

lemma validate_ok_iff (data : List Nat) (req_sec req_frac : Nat) :
    _validate_ntp_response data req_sec req_frac = Except.ok () ↔
      ¬(data.length < 48 ∨ byteAt data 0 % 8 ≠ 4 ∨ byteAt data 0 / 64 % 4 = 3 ∨
        byteAt data 1 = 0 ∨ (ntpWord data 6, ntpWord data 7) ≠ (req_sec, req_frac)) := by
  unfold _validate_ntp_response
  dsimp only
  split_ifs with h1 h2 h3 h4 h5 <;> simp_all

/-- An all-zero 48-byte buffer (mode 0, so validation must reject it). -/
def zeros48 : List Nat := List.replicate 48 0

/-- A minimal valid server response: byte 0 = `0x24` (LI=0, VN=4, Mode=4),
stratum 1, all timestamps zero (so it matches originate `(0, 0)`). -/
def validData : List Nat := 36 :: 1 :: List.replicate 46 0

/-- C1: response validation fails with an `NTPResponseError` if and only if
the buffer is shorter than 48 bytes, the mode (low 3 bits of byte 0) differs
from 4, the leap indicator (top 2 bits of byte 0) equals 3, the stratum
(byte 1) equals 0, or the originate timestamp decoded from bytes 24-31
differs from the `(sec, frac)` the request sent; moreover validation is pure
and runs before any offset/delay arithmetic: whenever it fails, the query
returns that error and computes no sample. -/
theorem validate_fails_iff (data : List Nat) (req_sec req_frac : Nat) :
    ((∃ e, _validate_ntp_response data req_sec req_frac = Except.error e) ↔
      (data.length < 48 ∨ byteAt data 0 % 8 ≠ 4 ∨ byteAt data 0 / 64 % 4 = 3 ∨
        byteAt data 1 = 0 ∨ (ntpWord data 6, ntpWord data 7) ≠ (req_sec, req_frac))) ∧
    (∀ e, _validate_ntp_response data req_sec req_frac = Except.error e →
      ∀ t1 t4, query_ntp_pure data t1 t4 req_sec req_frac = Except.error e) := by
  constructor
  · rw [exists_error_iff_ne_ok, Ne, validate_ok_iff, not_not]
  · intro e he t1 t4
    unfold query_ntp_pure
    rw [he]

/-- Witness for C1 at the all-zero buffer: mode is 0, so validation fails and
the query propagates the validation error. -/
theorem validate_fails_iff_witness :
    (∃ e, _validate_ntp_response zeros48 0 0 = Except.error e) ∧
    query_ntp_pure zeros48 0 0 0 0 = Except.error "Invalid NTP mode in response" := by
  refine ⟨(validate_fails_iff zeros48 0 0).1.mpr (Or.inr (Or.inl (by decide))), ?_⟩
  exact (validate_fails_iff zeros48 0 0).2 _ (by decide) 0 0

/-- C2: on a valid response, the returned sample satisfies
`delay_ms = ((T4 − T1) − (T3 − T2)) × 1000` and
`offset_ms = (((T2 − T1) + (T3 − T4)) / 2) × 1000`, where `T2`/`T3` are the
server receive/transmit timestamps decoded as `seconds + fraction / 2^32`
from big-endian words 8,9 resp. 10,11, shifted from the NTP epoch by
subtracting 2,208,988,800. -/
theorem query_ntp_pure_formulas (data : List Nat) (t1 t4 : ℚ) (req_sec req_frac : Nat)
    (T2 T3 : ℚ)
    (h2 : T2 = (ntpWord data 8 : ℚ) + (ntpWord data 9 : ℚ) / 2 ^ 32 - 2208988800)
    (h3 : T3 = (ntpWord data 10 : ℚ) + (ntpWord data 11 : ℚ) / 2 ^ 32 - 2208988800)
    (hv : _validate_ntp_response data req_sec req_frac = Except.ok ()) :
    query_ntp_pure data t1 t4 req_sec req_frac =
      Except.ok { offset_ms := ((T2 - t1) + (T3 - t4)) / 2 * 1000,
                  delay_ms := ((t4 - t1) - (T3 - T2)) * 1000 } := by
  subst h2 h3
  unfold query_ntp_pure
  rw [hv]
  simp [_ntp_to_system, NTP_DELTA]

/-- Witness for C2 at a concrete valid response with all-zero timestamps and
`t1 = t4 = 0`: both decoded timestamps are `−2208988800`. -/
theorem query_ntp_pure_formulas_witness :
    _validate_ntp_response validData 0 0 = Except.ok () ∧
    query_ntp_pure validData 0 0 0 0 =
      Except.ok { offset_ms := (((-2208988800 : ℚ) - 0) + ((-2208988800 : ℚ) - 0)) / 2 * 1000,
                  delay_ms := ((0 - 0) - ((-2208988800 : ℚ) - (-2208988800 : ℚ))) * 1000 } := by
  refine ⟨by decide, ?_⟩
  exact query_ntp_pure_formulas validData 0 0 0 0 (-2208988800) (-2208988800)
    (by norm_num [ntpWord, byteAt, validData]) (by norm_num [ntpWord, byteAt, validData])
    (by decide)

/-! ### Ranking engine (`rank_servers` in `core.py`) -/

/-- Errors raised by `rank_servers`: `ValueError` on bad configuration,
`RuntimeError` when the base server's stats are missing. -/
inductive RankError where
  | config (msg : String)
  | baseMissing
deriving DecidableEq, Repr

/-- The `Ranked` record built inside the `rank_servers` loop:
`vs_base = avg_offset_ms − base.avg_offset_ms` and
`score = |vs_base| + w_delay·avg_delay_ms + w_jitter·std_offset_ms`. -/
def mkRanked (base_stat st : Stats ℚ) (w_delay w_jitter : ℚ) : Ranked :=
  let vs_base := st.avg_offset_ms - base_stat.avg_offset_ms
  let score := |vs_base| + w_delay * st.avg_delay_ms + w_jitter * st.std_offset_ms
  { server := st.server, ok := st.ok, fail := st.fail,
    avg_offset_ms := st.avg_offset_ms, std_offset_ms := st.std_offset_ms,
    avg_delay_ms := st.avg_delay_ms, std_delay_ms := st.std_delay_ms,
    vs_base_ms := vs_base, score := score, grade := grade score }

/-- The delay filter of `rank_servers`:
`max_delay_ms is not None and st.avg_delay_ms >= max_delay_ms`. -/
def delayFiltered (max_delay_ms : Option ℚ) (d : ℚ) : Bool :=
  match max_delay_ms with
  | some m => decide (m ≤ d)
  | none => false

/-- The candidate-building loop of `rank_servers`: skip the baseline when
`allow_base` is false, compute the ranked record, drop entries caught by the
delay filter, keep input order. -/
def rankLoop (base_stat : Stats ℚ) (base : String) (w_delay w_jitter : ℚ)
    (max_delay_ms : Option ℚ) (allow_base : Bool) : List (Stats ℚ) → List Ranked
  | [] => []
  | st :: rest =>
    if ¬allow_base ∧ st.server = base then
      rankLoop base_stat base w_delay w_jitter max_delay_ms allow_base rest
    else if delayFiltered max_delay_ms st.avg_delay_ms then
      rankLoop base_stat base w_delay w_jitter max_delay_ms allow_base rest
    else
      mkRanked base_stat st w_delay w_jitter ::
        rankLoop base_stat base w_delay w_jitter max_delay_ms allow_base rest

/-- Python's `list.sort(key=lambda x: x.score)` is a stable sort by score. -/
def scoreLE (a b : Ranked) : Prop := a.score ≤ b.score

instance : DecidableRel scoreLE := fun a b =>
  inferInstanceAs (Decidable (a.score ≤ b.score))

instance : IsTotal Ranked scoreLE := ⟨fun a b => le_total a.score b.score⟩

instance : IsTrans Ranked scoreLE := ⟨fun _ _ _ h h2 => le_trans h h2⟩

/-- The `max_delay_ms is not None and max_delay_ms <= 0` configuration check. -/
def badMaxDelay (max_delay_ms : Option ℚ) : Bool :=
  match max_delay_ms with
  | some m => decide (m ≤ 0)
  | none => false

/-- `rank_servers` in `core.py`: validate weights and threshold, find the
first stats entry of the base server (`next(x for x in stats ...)`), build the
candidate list in input order, and stably sort it ascending by score. -/
def rank_servers (stats : List (Stats ℚ)) (base : String) (w_delay w_jitter : ℚ)
    (max_delay_ms : Option ℚ) (allow_base : Bool) : Except RankError (List Ranked) :=
  if w_delay < 0 ∨ w_jitter < 0 then
    .error (.config "w_delay and w_jitter must be >= 0")
  else if badMaxDelay max_delay_ms then
    .error (.config "max_delay_ms must be > 0 when provided")
  else
    match stats.find? (fun x => x.server == base) with
    | none => .error .baseMissing
    | some base_stat =>
      .ok (List.insertionSort scoreLE
        (rankLoop base_stat base w_delay w_jitter max_delay_ms allow_base stats))

/-- Spec-side grading, from the claim's words: `A` if `score ≤ 5`, `B` if
`score ≤ 10`, `C` if `score ≤ 20`, else `D` (boundaries inclusive on the
lower grade). -/
def gradeSpec (score : ℚ) : String :=
  if score ≤ 5 then "A"
  else if 5 < score ∧ score ≤ 10 then "B"
  else if 10 < score ∧ score ≤ 20 then "C"
  else "D"

/-- Spec-side candidate list, from the claim's words: exactly the entries
(skipping the baseline when `allow_base` is false) whose `avg_delay_ms` is
strictly below the threshold when one is provided, each carrying the claimed
`vs_base_ms`, `score` and `grade`, in input order. -/
def rankCandidatesSpec (stats : List (Stats ℚ)) (base_stat : Stats ℚ) (base : String)
    (w_delay w_jitter : ℚ) (max_delay_ms : Option ℚ) (allow_base : Bool) : List Ranked :=
  (stats.filter (fun st =>
      (allow_base || st.server ≠ base) &&
        (match max_delay_ms with
          | some m => decide (st.avg_delay_ms < m)
          | none => true))).map
    (fun st =>
      let vs_base := st.avg_offset_ms - base_stat.avg_offset_ms
      let score := |vs_base| + w_delay * st.avg_delay_ms + w_jitter * st.std_offset_ms
      { server := st.server, ok := st.ok, fail := st.fail,
        avg_offset_ms := st.avg_offset_ms, std_offset_ms := st.std_offset_ms,
        avg_delay_ms := st.avg_delay_ms, std_delay_ms := st.std_delay_ms,
        vs_base_ms := vs_base, score := score, grade := gradeSpec score })

lemma grade_eq_gradeSpec (s : ℚ) : grade s = gradeSpec s := by
  unfold grade gradeSpec
  by_cases h1 : s ≤ 5
  · simp [h1]
  · by_cases h2 : s ≤ 10
    · simp [h1, h2, lt_of_not_le h1]
    · by_cases h3 : s ≤ 20
      · simp [h1, h2, h3, lt_of_not_le h2]
      · simp [h1, h2, h3]

lemma spec_keep_eq_not_delayFiltered (max_delay_ms : Option ℚ) (d : ℚ) :
    (match max_delay_ms with
      | some m => decide (d < m)
      | none => true) = !delayFiltered max_delay_ms d := by
  cases max_delay_ms with
  | none => rfl
  | some m =>
    simp only [delayFiltered, ← decide_not]
    exact decide_eq_decide.mpr not_le.symm

/-- The candidate filter of the spec-side ranking list. -/
def rankKeep (base : String) (max_delay_ms : Option ℚ) (allow_base : Bool)
    (st : Stats ℚ) : Bool :=
  (allow_base || st.server ≠ base) &&
    (match max_delay_ms with
      | some m => decide (st.avg_delay_ms < m)
      | none => true)

lemma rankLoop_eq_spec (base_stat : Stats ℚ) (base : String) (w_delay w_jitter : ℚ)
    (max_delay_ms : Option ℚ) (allow_base : Bool) (stats : List (Stats ℚ)) :
    rankLoop base_stat base w_delay w_jitter max_delay_ms allow_base stats =
      rankCandidatesSpec stats base_stat base w_delay w_jitter max_delay_ms allow_base := by
  have hfil : ∀ l : List (Stats ℚ),
      rankCandidatesSpec l base_stat base w_delay w_jitter max_delay_ms allow_base =
        (l.filter (rankKeep base max_delay_ms allow_base)).map
          (fun st =>
            let vs_base := st.avg_offset_ms - base_stat.avg_offset_ms
            let score := |vs_base| + w_delay * st.avg_delay_ms + w_jitter * st.std_offset_ms
            { server := st.server, ok := st.ok, fail := st.fail,
              avg_offset_ms := st.avg_offset_ms, std_offset_ms := st.std_offset_ms,
              avg_delay_ms := st.avg_delay_ms, std_delay_ms := st.std_delay_ms,
              vs_base_ms := vs_base, score := score, grade := gradeSpec score }) :=
    fun _ => rfl
  induction stats with
  | nil => rfl
  | cons st rest ih =>
    rw [hfil] at ih ⊢
    unfold rankLoop
    by_cases hskip : ¬allow_base ∧ st.server = base
    · rw [if_pos hskip]
      have ha : allow_base = false := by
        have := hskip.1; revert this; cases allow_base <;> simp
      rw [List.filter_cons_of_neg (by simp [rankKeep, ha, hskip.2])]
      exact ih
    · rw [if_neg hskip]
      have hfst : (allow_base || decide (st.server ≠ base)) = true := by
        rcases not_and_or.mp hskip with h | h
        · have : allow_base = true := by revert h; cases allow_base <;> simp
          simp [this]
        · simp [h]
      cases hdf : delayFiltered max_delay_ms st.avg_delay_ms with
      | true =>
        rw [if_pos (by simp [hdf])]
        rw [List.filter_cons_of_neg]
        · exact ih
        · simp only [rankKeep, spec_keep_eq_not_delayFiltered, hdf]
          simp
      | false =>
        rw [if_neg (by simp [hdf])]
        rw [List.filter_cons_of_pos]
        · rw [List.map_cons, ih]
          unfold mkRanked
          simp [grade_eq_gradeSpec]
        · simp only [rankKeep, spec_keep_eq_not_delayFiltered, hdf, hfst]
          simp

lemma filter_score_orderedInsert (c : ℚ) (x : Ranked) (l : List Ranked) :
    (List.orderedInsert scoreLE x l).filter (fun e => e.score == c) =
      ((x :: l).filter (fun e => e.score == c)) := by
  induction l with
  | nil => rfl
  | cons y ys ih =>
    by_cases h : scoreLE x y
    · simp only [List.orderedInsert, if_pos h]
    · simp only [List.orderedInsert, if_neg h]
      by_cases hy : y.score = c
      · have hx : ¬x.score = c := by
          intro hx
          exact h (le_of_eq (hx.trans hy.symm))
        simp [List.filter_cons, hy, hx, ih]
      · simp [List.filter_cons, hy, ih]

lemma filter_score_insertionSort (c : ℚ) (l : List Ranked) :
    (List.insertionSort scoreLE l).filter (fun e => e.score == c) =
      l.filter (fun e => e.score == c) := by
  induction l with
  | nil => rfl
  | cons x xs ih =>
    simp only [List.insertionSort]
    rw [filter_score_orderedInsert]
    simp [List.filter_cons, ih]

/-- C4: when the stats list contains the base server (and the weights and
threshold are valid), `rank_servers` returns exactly the candidate entries —
skipping the baseline when `allow_base` is false, keeping an entry only when
its `avg_delay_ms` is strictly below the provided threshold (none filtered
when no threshold), with the claimed `vs_base_ms`, `score` and `grade` —
sorted ascending by score, ties broken by input order (stable sort). -/
theorem rank_servers_spec (stats : List (Stats ℚ)) (base : String) (w_delay w_jitter : ℚ)
    (max_delay_ms : Option ℚ) (allow_base : Bool)
    (hw : 0 ≤ w_delay) (hj : 0 ≤ w_jitter) (hm : ∀ m ∈ max_delay_ms, 0 < m)
    (hbase : ∃ st ∈ stats, st.server = base) :
    ∃ base_stat L,
      stats.find? (fun x => x.server == base) = some base_stat ∧
      rank_servers stats base w_delay w_jitter max_delay_ms allow_base = Except.ok L ∧
      L = List.insertionSort scoreLE
        (rankCandidatesSpec stats base_stat base w_delay w_jitter max_delay_ms allow_base) ∧
      L.Sorted scoreLE ∧
      ∀ c : ℚ, L.filter (fun e => e.score == c) =
        (rankCandidatesSpec stats base_stat base w_delay w_jitter max_delay_ms
            allow_base).filter (fun e => e.score == c) := by
  have hsome : (stats.find? (fun x => x.server == base)).isSome := by
    rw [List.find?_isSome]
    obtain ⟨st0, hmem, hsv⟩ := hbase
    exact ⟨st0, hmem, by simp [hsv]⟩
  obtain ⟨base_stat, hfind⟩ := Option.isSome_iff_exists.mp hsome
  have hbad : badMaxDelay max_delay_ms = false := by
    cases hmd : max_delay_ms with
    | none => rfl
    | some m =>
      have := hm m (by rw [hmd]; rfl)
      simp [badMaxDelay, not_le.mpr this]
  refine ⟨base_stat, _, hfind, ?_, rfl,
    List.sorted_insertionSort scoreLE _, fun c => filter_score_insertionSort c _⟩
  unfold rank_servers
  rw [if_neg (by push_neg; exact ⟨hw, hj⟩), if_neg (by simp [hbad]), hfind]
  dsimp only
  rw [rankLoop_eq_spec]

/-- Witness for C4: the ranking example of the spec, base at delay 10, a fast
server at delay 5, a slow server at delay 200 filtered by the 100 ms
threshold. -/
theorem rank_servers_spec_witness :
    (∃ base_stat L,
      [({ server := "base", ok := 5, fail := 0, avg_offset_ms := 0, std_offset_ms := 1/5,
           avg_delay_ms := 10, std_delay_ms := 1 } : Stats ℚ),
       { server := "fast", ok := 5, fail := 0, avg_offset_ms := 1, std_offset_ms := 1/10,
           avg_delay_ms := 5, std_delay_ms := 1 },
       { server := "slow", ok := 5, fail := 0, avg_offset_ms := 1/2, std_offset_ms := 1/10,
           avg_delay_ms := 200, std_delay_ms := 1 }].find? (fun x => x.server == "base")
          = some base_stat ∧
      rank_servers
        [{ server := "base", ok := 5, fail := 0, avg_offset_ms := 0, std_offset_ms := 1/5,
           avg_delay_ms := 10, std_delay_ms := 1 },
         { server := "fast", ok := 5, fail := 0, avg_offset_ms := 1, std_offset_ms := 1/10,
           avg_delay_ms := 5, std_delay_ms := 1 },
         { server := "slow", ok := 5, fail := 0, avg_offset_ms := 1/2, std_offset_ms := 1/10,
           avg_delay_ms := 200, std_delay_ms := 1 }] "base" (1/5) (1/2) (some 100) true
        = Except.ok L ∧
      L = List.insertionSort scoreLE
        (rankCandidatesSpec
          [{ server := "base", ok := 5, fail := 0, avg_offset_ms := 0, std_offset_ms := 1/5,
             avg_delay_ms := 10, std_delay_ms := 1 },
           { server := "fast", ok := 5, fail := 0, avg_offset_ms := 1, std_offset_ms := 1/10,
             avg_delay_ms := 5, std_delay_ms := 1 },
           { server := "slow", ok := 5, fail := 0, avg_offset_ms := 1/2, std_offset_ms := 1/10,
             avg_delay_ms := 200, std_delay_ms := 1 }] base_stat "base" (1/5) (1/2) (some 100) true) ∧
      L.Sorted scoreLE ∧
      ∀ c : ℚ, L.filter (fun e => e.score == c) =
        (rankCandidatesSpec
          [{ server := "base", ok := 5, fail := 0, avg_offset_ms := 0, std_offset_ms := 1/5,
             avg_delay_ms := 10, std_delay_ms := 1 },
           { server := "fast", ok := 5, fail := 0, avg_offset_ms := 1, std_offset_ms := 1/10,
             avg_delay_ms := 5, std_delay_ms := 1 },
           { server := "slow", ok := 5, fail := 0, avg_offset_ms := 1/2, std_offset_ms := 1/10,
             avg_delay_ms := 200, std_delay_ms := 1 }] base_stat "base" (1/5) (1/2) (some 100)
          true).filter (fun e => e.score == c)) :=
  rank_servers_spec _ "base" (1/5) (1/2) (some 100) true (by norm_num) (by norm_num)
    (by intro m hm; rw [Option.mem_def, Option.some_inj] at hm; rw [← hm]; norm_num)
    ⟨_, List.mem_cons_self _ _, rfl⟩

/-- C5: when no stats entry has the base server (in particular on the empty
list), `rank_servers` with valid weights and threshold fails with the
ranking-precondition error (`RuntimeError` in the source) and produces no
ranked output. -/
theorem rank_servers_missing_base (stats : List (Stats ℚ)) (base : String)
    (w_delay w_jitter : ℚ) (max_delay_ms : Option ℚ) (allow_base : Bool)
    (hw : 0 ≤ w_delay) (hj : 0 ≤ w_jitter) (hm : ∀ m ∈ max_delay_ms, 0 < m)
    (hbase : ∀ st ∈ stats, st.server ≠ base) :
    rank_servers stats base w_delay w_jitter max_delay_ms allow_base =
      Except.error RankError.baseMissing := by
  have hbad : badMaxDelay max_delay_ms = false := by
    cases hmd : max_delay_ms with
    | none => rfl
    | some m =>
      have := hm m (by rw [hmd]; rfl)
      simp [badMaxDelay, not_le.mpr this]
  have hfind : stats.find? (fun x => x.server == base) = none := by
    rw [List.find?_eq_none]
    intro st hmem
    simp [hbase st hmem]
  unfold rank_servers
  rw [if_neg (by push_neg; exact ⟨hw, hj⟩), if_neg (by simp [hbad]), hfind]

/-- Witness for C5: the empty stats list with the default weights and
threshold. -/
theorem rank_servers_missing_base_witness :
    rank_servers [] "ntp.kriss.re.kr" (1/5) (1/2) (some 100) true =
      Except.error RankError.baseMissing :=
  rank_servers_missing_base [] "ntp.kriss.re.kr" (1/5) (1/2) (some 100) true
    (by norm_num) (by norm_num)
    (by intro m hm; rw [Option.mem_def, Option.some_inj] at hm; rw [← hm]; norm_num)
    (by intro st hmem; cases hmem)

/-! ### Recommender (`recommend` in `core.py`) -/

/-- The scanning loop of `recommend`: skip the baseline, return the first
entry whose success rate `ok / (ok + fail)` (0.0 when `ok + fail == 0`)
reaches `require_ok_rate`. -/
def recommendScan (base : String) (require_ok_rate : ℚ) : List Ranked → Option Ranked
  | [] => none
  | r :: rest =>
    if r.server = base then recommendScan base require_ok_rate rest
    else
      let total := r.ok + r.fail
      let ok_rate : ℚ := if total > 0 then (r.ok : ℚ) / (total : ℚ) else 0
      if ok_rate ≥ require_ok_rate then some r
      else recommendScan base require_ok_rate rest

/-- `recommend` in `core.py`: reject a success-rate threshold outside
`[0, 1]`, otherwise scan the ranked list. -/
def recommend (ranked : List Ranked) (base : String) (require_ok_rate : ℚ) :
    Except String (Option Ranked) :=
  if ¬(0 ≤ require_ok_rate ∧ require_ok_rate ≤ 1) then
    .error "require_ok_rate must be between 0.0 and 1.0"
  else .ok (recommendScan base require_ok_rate ranked)

/-- Spec-side success rate, from the claim's words: `ok / (ok + fail)`,
defined as 0.0 when `ok + fail = 0`. -/
def okRateSpec (r : Ranked) : ℚ :=
  if r.ok + r.fail = 0 then 0 else (r.ok : ℚ) / ((r.ok : ℚ) + (r.fail : ℚ))

lemma recommendScan_eq_find? (base : String) (rate : ℚ) (ranked : List Ranked) :
    recommendScan base rate ranked =
      ranked.find? (fun r => r.server != base && decide (okRateSpec r ≥ rate)) := by
  induction ranked with
  | nil => rfl
  | cons r rest ih =>
    unfold recommendScan
    by_cases hb : r.server = base
    · rw [if_pos hb, ih, List.find?_cons_of_neg]
      simp [hb]
    · rw [if_neg hb]
      have hrate : (if r.ok + r.fail > 0 then (r.ok : ℚ) / ((r.ok + r.fail : Nat) : ℚ) else 0) =
          okRateSpec r := by
        unfold okRateSpec
        by_cases h0 : r.ok + r.fail = 0
        · simp [h0]
        · rw [if_pos (Nat.pos_of_ne_zero h0), if_neg h0]
          push_cast
          ring_nf
      by_cases hq : okRateSpec r ≥ rate
      · rw [if_pos (by rw [hrate]; exact hq), List.find?_cons_of_pos]
        simp [hb, hq]
      · rw [if_neg (by rw [hrate]; exact hq), ih, List.find?_cons_of_neg]
        simp [hq]

/-- C8: `recommend` rejects a `require_ok_rate` outside `[0, 1]` as a
configuration error; otherwise it scans the already-ranked list in order,
skips baseline entries, and returns the first entry whose success rate
`ok / (ok + fail)` (0.0 when `ok + fail = 0`) is at least the threshold,
or `none` when no entry qualifies. -/
theorem recommend_spec (ranked : List Ranked) (base : String) (require_ok_rate : ℚ) :
    (¬(0 ≤ require_ok_rate ∧ require_ok_rate ≤ 1) →
      recommend ranked base require_ok_rate =
        Except.error "require_ok_rate must be between 0.0 and 1.0") ∧
    (0 ≤ require_ok_rate → require_ok_rate ≤ 1 →
      recommend ranked base require_ok_rate =
        Except.ok (ranked.find?
          (fun r => r.server != base && decide (okRateSpec r ≥ require_ok_rate)))) := by
  constructor
  · intro h
    unfold recommend
    rw [if_pos h]
  · intro h0 h1
    unfold recommend
    rw [if_neg (by push_neg; exact ⟨h0, h1⟩), recommendScan_eq_find?]

/-- The recommend example of the spec: a perfect baseline, an entry with
success rate 0.2, and an entry with success rate 0.8, sorted by score. -/
def recommendExample : List Ranked :=
  [{ server := "base", ok := 5, fail := 0, avg_offset_ms := 0, std_offset_ms := 0,
     avg_delay_ms := 1, std_delay_ms := 0, vs_base_ms := 0, score := 0, grade := "A" },
   { server := "low-ok", ok := 1, fail := 4, avg_offset_ms := 1, std_offset_ms := 0,
     avg_delay_ms := 1, std_delay_ms := 0, vs_base_ms := 1, score := 1, grade := "A" },
   { server := "good", ok := 4, fail := 1, avg_offset_ms := 2, std_offset_ms := 0,
     avg_delay_ms := 1, std_delay_ms := 0, vs_base_ms := 2, score := 2, grade := "A" }]

/-- Witness for C8 at the spec's recommend example: with threshold 0.8 the
scan skips the baseline, rejects the entry with success rate 0.2, and
returns the entry with success rate 0.8. -/
theorem recommend_spec_witness :
    (0 : ℚ) ≤ 4/5 ∧ (4/5 : ℚ) ≤ 1 ∧
    recommend recommendExample "base" (4/5) =
      Except.ok (recommendExample.find?
        (fun r => r.server != "base" && decide (okRateSpec r ≥ 4/5))) := by
  refine ⟨by norm_num, by norm_num, ?_⟩
  exact (recommend_spec recommendExample "base" (4/5)).2 (by norm_num) (by norm_num)

/-! ### Sampler / aggregator (`collect_stats` in `core.py`)

`query_ntp` performs network I/O, so the sampling loop is modelled against an
oracle assigning each round index and server the outcome of that attempt:
a `Sample`, a classified failure (one of the exception kinds listed in the
`except` clause of `collect_stats`), or an unclassified error (any other
exception raised during the attempt). -/

/-- The classified per-attempt failures: the exception kinds caught by
`collect_stats` in `core.py` (`socket.timeout`, `socket.gaierror`, `OSError`,
`struct.error`, `NTPResponseError`). -/
inductive AttemptError where
  | timeout
  | gaierror
  | oserror
  | structError
  | responseError
deriving DecidableEq, Repr

/-- Outcome of one query attempt: success, classified failure, or an
unclassified (unexpected) error. -/
inductive QueryOutcome where
  | ok (smp : Sample)
  | err (e : AttemptError)
  | crash
deriving DecidableEq, Repr

/-- The mutable accumulators of `collect_stats`: per-server success lists
(`raw`) and failure counters (`fails`). -/
structure RunState where
  raw : String → List Sample
  fails : String → Nat

/-- The initial accumulators: `{s: [] for s in servers}` and
`{s: 0 for s in servers}`. -/
def initState : RunState := { raw := fun _ => [], fails := fun _ => 0 }

/-- `raw[s].append(sample)`. -/
def recordOk (st : RunState) (s : String) (smp : Sample) : RunState :=
  { st with raw := fun t => if t = s then st.raw s ++ [smp] else st.raw t }

/-- `fails[s] += 1`. -/
def recordFail (st : RunState) (s : String) : RunState :=
  { st with fails := fun t => if t = s then st.fails s + 1 else st.fails t }

/-- One round of the sampling loop (`for s in servers: try ... except ...`):
a success is appended, a classified failure increments the counter, an
unclassified error propagates (aborting the run). -/
def runRound (q1 : String → QueryOutcome) : List String → RunState → Except Unit RunState
  | [], st => .ok st
  | s :: rest, st =>
    match q1 s with
    | .ok smp => runRound q1 rest (recordOk st s smp)
    | .err _ => runRound q1 rest (recordFail st s)
    | .crash => .error ()

/-- The outer loop (`for i in range(samples)`), run with `n` rounds left
starting at round index `i`. -/
def runRounds (q : Nat → String → QueryOutcome) (servers : List String) :
    Nat → Nat → RunState → Except Unit RunState
  | 0, _, st => .ok st
  | Nat.succ n, i, st =>
    match runRound (q i) servers st with
    | .error e => .error e
    | .ok st2 => runRounds q servers n (i + 1) st2

/-- `statistics.mean` (idealised over exact rationals). -/
def meanQ (xs : List ℚ) : ℚ := xs.sum / xs.length

/-- `statistics.pvariance`: population variance, mean squared deviation. -/
def pvarianceQ (xs : List ℚ) : ℚ := ((xs.map (fun x => (x - meanQ xs) ^ 2)).sum) / xs.length

/-- `statistics.pstdev`: population standard deviation. -/
noncomputable def pstdev (xs : List ℚ) : ℝ := Real.sqrt (pvarianceQ xs)

/-- The `Stats` record built for one server by `collect_stats`:
mean offset/delay, and population standard deviation when there is more than
one success, else `0.0`. -/
noncomputable def mkStats (s : String) (smps : List Sample) (failCount : Nat) : Stats ℝ :=
  let offs := smps.map Sample.offset_ms
  let dels := smps.map Sample.delay_ms
  { server := s, ok := smps.length, fail := failCount,
    avg_offset_ms := (meanQ offs : ℝ),
    std_offset_ms := if smps.length > 1 then pstdev offs else 0,
    avg_delay_ms := (meanQ dels : ℝ),
    std_delay_ms := if smps.length > 1 then pstdev dels else 0 }

/-- The output loop of `collect_stats`: one `Stats` per server in input
order, skipping servers with zero successes. -/
noncomputable def aggregateStats (servers : List String) (st : RunState) : List (Stats ℝ) :=
  servers.filterMap (fun s =>
    if (st.raw s).length = 0 then none
    else some (mkStats s (st.raw s) (st.fails s)))

/-- Errors of `collect_stats`: a configuration `ValueError`, or an
unclassified error propagated out of a query attempt. -/
inductive CollectError where
  | config (msg : String)
  | unexpected
deriving DecidableEq, Repr

/-- `collect_stats` in `core.py`: validate the configuration, run
`samples` rounds over the servers, aggregate.  (The inter-round sleep does
not affect the computed values and is not modelled.) -/
noncomputable def collect_stats (q : Nat → String → QueryOutcome) (servers : List String)
    (samples : ℤ) (timeout sleep_between : ℚ) : Except CollectError (List (Stats ℝ)) :=
  if samples < 1 then .error (.config "samples must be >= 1")
  else if timeout ≤ 0 then .error (.config "timeout must be > 0")
  else if sleep_between < 0 then .error (.config "sleep_between must be >= 0")
  else
    match runRounds q servers samples.toNat 0 initState with
    | .error _ => .error .unexpected
    | .ok st => .ok (aggregateStats servers st)

/-- Spec-side: the successful samples of server `s` over rounds
`i, i+1, ..., i+n-1`, in round order. -/
def roundSucc (q : Nat → String → QueryOutcome) (s : String) (i n : Nat) : List Sample :=
  (List.range' i n).filterMap (fun j =>
    match q j s with
    | .ok smp => some smp
    | _ => none)

/-- Spec-side: the number of classified failures of server `s` over rounds
`i, i+1, ..., i+n-1`. -/
def roundFails (q : Nat → String → QueryOutcome) (s : String) (i n : Nat) : Nat :=
  ((List.range' i n).filter (fun j =>
    match q j s with
    | .err _ => true
    | _ => false)).length

/-- Spec-side, from the claim's words: one entry per server with at least one
success, in input order; averages are arithmetic means and deviations are
population standard deviations of that server's successful samples. -/
noncomputable def collectStatsSpec (q : Nat → String → QueryOutcome)
    (servers : List String) (n : Nat) : List (Stats ℝ) :=
  servers.filterMap (fun s =>
    let smps := roundSucc q s 0 n
    if smps.length = 0 then none
    else
      some { server := s, ok := smps.length, fail := roundFails q s 0 n,
             avg_offset_ms := (meanQ (smps.map Sample.offset_ms) : ℝ),
             std_offset_ms := pstdev (smps.map Sample.offset_ms),
             avg_delay_ms := (meanQ (smps.map Sample.delay_ms) : ℝ),
             std_delay_ms := pstdev (smps.map Sample.delay_ms) })

/-- Samples contributed by one attempt outcome. -/
def oneSucc : QueryOutcome → List Sample
  | .ok smp => [smp]
  | _ => []

/-- Failure count contributed by one attempt outcome. -/
def oneFail : QueryOutcome → Nat
  | .err _ => 1
  | _ => 0

lemma roundSucc_succ (q : Nat → String → QueryOutcome) (s : String) (i n : Nat) :
    roundSucc q s i (n + 1) = oneSucc (q i s) ++ roundSucc q s (i + 1) n := by
  unfold roundSucc
  rw [List.range'_succ i n 1, List.filterMap_cons]
  cases q i s <;> rfl

lemma roundFails_succ (q : Nat → String → QueryOutcome) (s : String) (i n : Nat) :
    roundFails q s i (n + 1) = oneFail (q i s) + roundFails q s (i + 1) n := by
  unfold roundFails
  rw [List.range'_succ i n 1, List.filter_cons]
  cases q i s <;> simp [oneFail, Nat.add_comm]

lemma runRound_noCrash (q1 : String → QueryOutcome) (servers : List String) (st : RunState)
    (hnc : ∀ s ∈ servers, q1 s ≠ .crash) :
    ∃ st2, runRound q1 servers st = Except.ok st2 ∧
      (∀ t, st2.fails t = st.fails t + servers.count t * oneFail (q1 t)) ∧
      (servers.Nodup →
        (∀ s ∈ servers, st2.raw s = st.raw s ++ oneSucc (q1 s)) ∧
        (∀ s, s ∉ servers → st2.raw s = st.raw s)) := by
  induction servers generalizing st with
  | nil =>
    exact ⟨st, rfl, fun t => by simp, fun _ => ⟨fun s hs => absurd hs (List.not_mem_nil s),
      fun s _ => rfl⟩⟩
  | cons s0 rest ih =>
    have hnc0 := hnc s0 (List.mem_cons_self s0 rest)
    have hncr : ∀ s ∈ rest, q1 s ≠ .crash := fun s hs => hnc s (List.mem_cons_of_mem s0 hs)
    cases hq : q1 s0 with
    | crash => exact absurd hq hnc0
    | ok smp =>
      obtain ⟨st2, hrun, hfails, hraw⟩ := ih (recordOk st s0 smp) hncr
      refine ⟨st2, ?_, ?_, ?_⟩
      · unfold runRound
        rw [hq]
        exact hrun
      · intro t
        rw [hfails t]
        by_cases hts : t = s0
        · subst hts
          simp [recordFail, recordOk, List.count_cons, hq, oneFail]
        · simp [recordOk, List.count_cons, hts]
      · intro hnd
        have hs0r : s0 ∉ rest := (List.nodup_cons.mp hnd).1
        have hndr : rest.Nodup := (List.nodup_cons.mp hnd).2
        obtain ⟨hmem, hnmem⟩ := hraw hndr
        constructor
        · intro s hs
          rcases List.mem_cons.mp hs with rfl | hs
          · rw [hnmem s hs0r, hq]
            simp [recordOk, oneSucc]
          · rw [hmem s hs]
            have hne : s ≠ s0 := fun h => hs0r (h ▸ hs)
            simp [recordOk, hne]
        · intro s hs
          have hne : s ≠ s0 := fun h => hs (h ▸ List.mem_cons_self s0 rest)
          have hsr : s ∉ rest := fun h => hs (List.mem_cons_of_mem s0 h)
          rw [hnmem s hsr]
          simp [recordOk, hne]
    | err e =>
      obtain ⟨st2, hrun, hfails, hraw⟩ := ih (recordFail st s0) hncr
      refine ⟨st2, ?_, ?_, ?_⟩
      · unfold runRound
        rw [hq]
        exact hrun
      · intro t
        rw [hfails t]
        by_cases hts : t = s0
        · subst hts
          simp [recordFail, List.count_cons, hq, oneFail]
          ring
        · simp [recordFail, List.count_cons, hts]
      · intro hnd
        have hs0r : s0 ∉ rest := (List.nodup_cons.mp hnd).1
        have hndr : rest.Nodup := (List.nodup_cons.mp hnd).2
        obtain ⟨hmem, hnmem⟩ := hraw hndr
        constructor
        · intro s hs
          rcases List.mem_cons.mp hs with rfl | hs
          · rw [hnmem s hs0r, hq]
            simp [recordFail, oneSucc]
          · rw [hmem s hs]
            simp [recordFail]
        · intro s hs
          have hsr : s ∉ rest := fun h => hs (List.mem_cons_of_mem s0 h)
          rw [hnmem s hsr]
          simp [recordFail]

lemma runRounds_noCrash (q : Nat → String → QueryOutcome) (servers : List String)
    (n : Nat) : ∀ (i : Nat) (st : RunState),
    (∀ j ∈ List.range' i n, ∀ s ∈ servers, q j s ≠ .crash) →
    ∃ st2, runRounds q servers n i st = Except.ok st2 ∧
      (∀ t, st2.fails t = st.fails t + servers.count t * roundFails q t i n) ∧
      (servers.Nodup → ∀ s ∈ servers, st2.raw s = st.raw s ++ roundSucc q s i n) := by
  induction n with
  | zero =>
    intro i st _
    exact ⟨st, rfl, fun t => by simp [roundFails, List.range'], fun _ s _ => by
      simp [roundSucc, List.range']⟩
  | succ n ih =>
    intro i st hnc
    have hhead : ∀ s ∈ servers, q i s ≠ .crash := by
      intro s hs
      exact hnc i (by rw [List.range'_succ i n 1]; exact List.mem_cons_self _ _) s hs
    have htail : ∀ j ∈ List.range' (i + 1) n, ∀ s ∈ servers, q j s ≠ .crash := by
      intro j hj s hs
      exact hnc j (by rw [List.range'_succ i n 1]; exact List.mem_cons_of_mem _ hj) s hs
    obtain ⟨st1, hrun1, hfails1, hraw1⟩ := runRound_noCrash (q i) servers st hhead
    obtain ⟨st2, hrun2, hfails2, hraw2⟩ := ih (i + 1) st1 htail
    refine ⟨st2, ?_, ?_, ?_⟩
    · unfold runRounds
      rw [hrun1]
      exact hrun2
    · intro t
      rw [hfails2 t, hfails1 t, roundFails_succ, Nat.mul_add]
      ring
    · intro hnd
      intro s hs
      rw [hraw2 hnd s hs, (hraw1 hnd).1 s hs, roundSucc_succ, List.append_assoc]

lemma pstdev_nil : pstdev [] = 0 := by
  unfold pstdev pvarianceQ meanQ
  simp

lemma pstdev_singleton (x : ℚ) : pstdev [x] = 0 := by
  unfold pstdev pvarianceQ meanQ
  simp

/-- The `pstdev(...) if ok > 1 else 0.0` special-casing in `collect_stats`
agrees with the unconditional population standard deviation, because the
population standard deviation of a singleton is 0. -/
lemma mkStats_eq (s : String) (smps : List Sample) (failCount : Nat) :
    mkStats s smps failCount =
      { server := s, ok := smps.length, fail := failCount,
        avg_offset_ms := (meanQ (smps.map Sample.offset_ms) : ℝ),
        std_offset_ms := pstdev (smps.map Sample.offset_ms),
        avg_delay_ms := (meanQ (smps.map Sample.delay_ms) : ℝ),
        std_delay_ms := pstdev (smps.map Sample.delay_ms) } := by
  match smps with
  | [] => simp [mkStats, pstdev_nil]
  | [x] => simp [mkStats, pstdev_singleton]
  | x :: y :: tl => simp [mkStats]

lemma collect_stats_eq_spec (q : Nat → String → QueryOutcome) (servers : List String)
    (samples : ℤ) (timeout sleep_between : ℚ)
    (hnd : servers.Nodup) (hs : 1 ≤ samples) (ht : 0 < timeout) (hsb : 0 ≤ sleep_between)
    (hnc : ∀ i < samples.toNat, ∀ s ∈ servers, q i s ≠ .crash) :
    collect_stats q servers samples timeout sleep_between =
      Except.ok (collectStatsSpec q servers samples.toNat) := by
  unfold collect_stats
  rw [if_neg (not_lt.mpr hs), if_neg (not_le.mpr ht), if_neg (not_lt.mpr hsb)]
  obtain ⟨st2, hrun, hfails, hraw⟩ := runRounds_noCrash q servers samples.toNat 0 initState
    (by
      intro j hj s hs'
      have := List.mem_range'_1.mp hj
      exact hnc j (by omega) s hs')
  rw [hrun]
  dsimp only
  congr 1
  unfold aggregateStats collectStatsSpec
  apply List.filterMap_congr
  intro s hs'
  have hraws : st2.raw s = roundSucc q s 0 samples.toNat := by
    rw [hraw hnd s hs']
    simp [initState]
  have hfailss : st2.fails s = roundFails q s 0 samples.toNat := by
    rw [hfails s]
    simp [initState, List.count_eq_one_of_mem hnd hs']
  rw [hraws, hfailss, mkStats_eq]

lemma runRound_ok_noCrash (q1 : String → QueryOutcome) (servers : List String)
    (st st2 : RunState) (h : runRound q1 servers st = Except.ok st2) :
    ∀ s ∈ servers, q1 s ≠ .crash := by
  induction servers generalizing st with
  | nil => intro s hs; exact absurd hs (List.not_mem_nil s)
  | cons s0 rest ih =>
    intro s hs
    cases hq : q1 s0 with
    | crash =>
      unfold runRound at h
      rw [hq] at h
      exact absurd h (by simp)
    | ok smp =>
      unfold runRound at h
      rw [hq] at h
      rcases List.mem_cons.mp hs with rfl | hs2
      · rw [hq]; simp
      · exact ih (recordOk st s0 smp) h s hs2
    | err e =>
      unfold runRound at h
      rw [hq] at h
      rcases List.mem_cons.mp hs with rfl | hs2
      · rw [hq]; simp
      · exact ih (recordFail st s0) h s hs2

lemma runRounds_ok_noCrash (q : Nat → String → QueryOutcome) (servers : List String)
    (n : Nat) : ∀ (i : Nat) (st st2 : RunState),
    runRounds q servers n i st = Except.ok st2 →
    ∀ j ∈ List.range' i n, ∀ s ∈ servers, q j s ≠ .crash := by
  induction n with
  | zero => intro i st st2 _ j hj; exact absurd hj (by simp [List.range'])
  | succ n ih =>
    intro i st st2 h j hj s hs
    unfold runRounds at h
    cases hr : runRound (q i) servers st with
    | error e => rw [hr] at h; exact absurd h (by simp)
    | ok st1 =>
      rw [hr] at h
      rw [List.range'_succ i n 1] at hj
      rcases List.mem_cons.mp hj with rfl | hj2
      · exact runRound_ok_noCrash (q j) servers st st1 hr s hs
      · exact ih (i + 1) st1 st2 h j hj2 s hs

lemma runRound_crash (q1 : String → QueryOutcome) (servers : List String) (st : RunState)
    (hc : ∃ s ∈ servers, q1 s = .crash) :
    runRound q1 servers st = Except.error () := by
  induction servers generalizing st with
  | nil => obtain ⟨s, hs, _⟩ := hc; exact absurd hs (List.not_mem_nil s)
  | cons s0 rest ih =>
    obtain ⟨s, hs, hcr⟩ := hc
    cases hq : q1 s0 with
    | crash =>
      unfold runRound
      rw [hq]
    | ok smp =>
      have hsr : s ∈ rest := by
        rcases List.mem_cons.mp hs with rfl | h2
        · rw [hq] at hcr; exact absurd hcr (by simp)
        · exact h2
      unfold runRound
      rw [hq]
      exact ih (recordOk st s0 smp) ⟨s, hsr, hcr⟩
    | err e =>
      have hsr : s ∈ rest := by
        rcases List.mem_cons.mp hs with rfl | h2
        · rw [hq] at hcr; exact absurd hcr (by simp)
        · exact h2
      unfold runRound
      rw [hq]
      exact ih (recordFail st s0) ⟨s, hsr, hcr⟩

lemma runRounds_crash (q : Nat → String → QueryOutcome) (servers : List String)
    (n : Nat) : ∀ (i : Nat) (st : RunState),
    (∃ j ∈ List.range' i n, ∃ s ∈ servers, q j s = .crash) →
    runRounds q servers n i st = Except.error () := by
  induction n with
  | zero =>
    intro i st hc
    obtain ⟨j, hj, _⟩ := hc
    exact absurd hj (by simp [List.range'])
  | succ n ih =>
    intro i st hc
    by_cases hc0 : ∃ s ∈ servers, q i s = .crash
    · unfold runRounds
      rw [runRound_crash (q i) servers st hc0]
    · obtain ⟨j, hj, s, hs, hcr⟩ := hc
      rw [List.range'_succ i n 1] at hj
      have hj2 : j ∈ List.range' (i + 1) n := by
        rcases List.mem_cons.mp hj with rfl | h2
        · exact absurd ⟨s, hs, hcr⟩ hc0
        · exact h2
      have hnc0 : ∀ s ∈ servers, q i s ≠ .crash := by
        intro s' hs' hcr'
        exact hc0 ⟨s', hs', hcr'⟩
      obtain ⟨st1, hrun1, _, _⟩ := runRound_noCrash (q i) servers st hnc0
      unfold runRounds
      rw [hrun1]
      exact ih (i + 1) st1 ⟨j, hj2, s, hs, hcr⟩

lemma roundSucc_length_add (q : Nat → String → QueryOutcome) (s : String) (n : Nat) :
    ∀ i : Nat, (∀ j ∈ List.range' i n, q j s ≠ .crash) →
    (roundSucc q s i n).length + roundFails q s i n = n := by
  induction n with
  | zero => intro i _; simp [roundSucc, roundFails, List.range']
  | succ n ih =>
    intro i hnc
    have h0 : q i s ≠ .crash :=
      hnc i (by rw [List.range'_succ i n 1]; exact List.mem_cons_self _ _)
    have htail : ∀ j ∈ List.range' (i + 1) n, q j s ≠ .crash := fun j hj =>
      hnc j (by rw [List.range'_succ i n 1]; exact List.mem_cons_of_mem _ hj)
    rw [roundSucc_succ, roundFails_succ, List.length_append]
    have := ih (i + 1) htail
    cases hq : q i s with
    | crash => exact absurd hq h0
    | ok smp => simp only [oneSucc, oneFail, List.length_singleton, List.length_nil]; omega
    | err e => simp only [oneSucc, oneFail, List.length_singleton, List.length_nil]; omega

/-- C3 (amended to duplicate-free server lists): for every run over distinct
servers, `collect_stats` returns exactly one `Stats` entry per server with at
least one success (none for servers with zero successes), in input order;
the averages are the arithmetic means and the deviations the population
standard deviations of that server's successful samples, with the deviations
exactly 0 for a server with exactly one success. -/
theorem collect_stats_aggregation (q : Nat → String → QueryOutcome) (servers : List String)
    (samples : ℤ) (timeout sleep_between : ℚ)
    (hnd : servers.Nodup) (hs : 1 ≤ samples) (ht : 0 < timeout) (hsb : 0 ≤ sleep_between)
    (hnc : ∀ i < samples.toNat, ∀ s ∈ servers, q i s ≠ .crash) :
    collect_stats q servers samples timeout sleep_between =
      Except.ok (collectStatsSpec q servers samples.toNat) ∧
    ∀ stt ∈ collectStatsSpec q servers samples.toNat,
      stt.ok = 1 → stt.std_offset_ms = 0 ∧ stt.std_delay_ms = 0 := by
  refine ⟨collect_stats_eq_spec q servers samples timeout sleep_between hnd hs ht hsb hnc, ?_⟩
  intro stt hmem hok
  unfold collectStatsSpec at hmem
  obtain ⟨s, _, hsome⟩ := List.mem_filterMap.mp hmem
  dsimp only at hsome
  by_cases h0 : (roundSucc q s 0 samples.toNat).length = 0
  · rw [if_pos h0] at hsome
    exact absurd hsome (by simp)
  · rw [if_neg h0] at hsome
    have hstt := Option.some_inj.mp hsome
    have hlen : (roundSucc q s 0 samples.toNat).length = 1 := by
      rw [← hstt] at hok
      exact hok
    obtain ⟨x, hx⟩ := List.length_eq_one.mp hlen
    rw [← hstt]
    simp [hx, pstdev_singleton]

/-- Witness for C3: one server, one round, one successful sample. -/
theorem collect_stats_aggregation_witness :
    collect_stats (fun _ _ => QueryOutcome.ok ⟨0, 0⟩) ["a"] 1 1 0 =
      Except.ok (collectStatsSpec (fun _ _ => QueryOutcome.ok ⟨0, 0⟩) ["a"] (1 : ℤ).toNat) ∧
    ∀ stt ∈ collectStatsSpec (fun _ _ => QueryOutcome.ok ⟨0, 0⟩) ["a"] (1 : ℤ).toNat,
      stt.ok = 1 → stt.std_offset_ms = 0 ∧ stt.std_delay_ms = 0 :=
  collect_stats_aggregation (fun _ _ => QueryOutcome.ok ⟨0, 0⟩) ["a"] 1 1 0
    (by simp) (by norm_num) (by norm_num) (by norm_num)
    (fun i _ s _ => by simp)

/-- Counterexample to C3 as stated: with a duplicated server name the source
emits one `Stats` entry per *occurrence*, not exactly one per server — the
run below returns two entries for the single successful server `"a"`. -/
theorem collect_stats_duplicate_counterexample :
    collect_stats (fun _ _ => QueryOutcome.ok ⟨0, 0⟩) ["a", "a"] 1 1 0 =
      Except.ok [mkStats "a" [⟨0, 0⟩, ⟨0, 0⟩] 0, mkStats "a" [⟨0, 0⟩, ⟨0, 0⟩] 0] ∧
    (mkStats "a" [⟨0, 0⟩, ⟨0, 0⟩] 0).server = "a" ∧
    (mkStats "a" [⟨0, 0⟩, ⟨0, 0⟩] 0).ok = 2 := by
  exact ⟨rfl, rfl, rfl⟩

/-- C6: with a valid configuration, an unclassified error raised during any
attempt propagates out of `collect_stats` (no stats are produced, nothing is
counted), while a run whose attempts only succeed or fail with classified
errors completes, each classified failure incrementing only its own server's
failure counter: every emitted entry's `fail` field counts exactly its
server's classified failures (once per occurrence of the server in the input
list). -/
theorem collect_stats_error_policy (q : Nat → String → QueryOutcome) (servers : List String)
    (samples : ℤ) (timeout sleep_between : ℚ)
    (hs : 1 ≤ samples) (ht : 0 < timeout) (hsb : 0 ≤ sleep_between) :
    ((∃ i, i < samples.toNat ∧ ∃ s ∈ servers, q i s = .crash) →
      collect_stats q servers samples timeout sleep_between =
        Except.error CollectError.unexpected) ∧
    ((∀ i < samples.toNat, ∀ s ∈ servers, q i s ≠ .crash) →
      ∃ L, collect_stats q servers samples timeout sleep_between = Except.ok L ∧
        ∀ stt ∈ L, stt.fail =
          servers.count stt.server * roundFails q stt.server 0 samples.toNat) := by
  constructor
  · rintro ⟨i, hi, hcrash⟩
    unfold collect_stats
    rw [if_neg (not_lt.mpr hs), if_neg (not_le.mpr ht), if_neg (not_lt.mpr hsb)]
    rw [runRounds_crash q servers samples.toNat 0 initState
      ⟨i, List.mem_range'_1.mpr (by omega), hcrash⟩]
  · intro hnc
    unfold collect_stats
    rw [if_neg (not_lt.mpr hs), if_neg (not_le.mpr ht), if_neg (not_lt.mpr hsb)]
    obtain ⟨st2, hrun, hfails, _⟩ := runRounds_noCrash q servers samples.toNat 0 initState
      (by
        intro j hj s hs'
        have := List.mem_range'_1.mp hj
        exact hnc j (by omega) s hs')
    rw [hrun]
    refine ⟨aggregateStats servers st2, rfl, ?_⟩
    intro stt hmem
    unfold aggregateStats at hmem
    obtain ⟨s, _, hsome⟩ := List.mem_filterMap.mp hmem
    by_cases h0 : (st2.raw s).length = 0
    · rw [if_pos h0] at hsome
      exact absurd hsome (by simp)
    · rw [if_neg h0] at hsome
      have hstt := Option.some_inj.mp hsome
      have hsrv : stt.server = s := by rw [← hstt]; rfl
      have hfail : stt.fail = st2.fails s := by rw [← hstt]; rfl
      rw [hfail, hsrv, hfails s]
      simp [initState]

/-- Witness for C6: an attempt that raises an unclassified error makes
`collect_stats` propagate it. -/
theorem collect_stats_error_policy_witness :
    collect_stats (fun _ _ => QueryOutcome.crash) ["a"] 1 1 0 =
      Except.error CollectError.unexpected :=
  (collect_stats_error_policy (fun _ _ => QueryOutcome.crash) ["a"] 1 1 0
      (by norm_num) (by norm_num) (by norm_num)).1
    ⟨0, by decide, "a", by simp, rfl⟩

/-- C7: `collect_stats` with `samples < 1`, `timeout ≤ 0` or
`sleep_between < 0` raises a configuration error before any query attempt:
the result is a `config` error and is independent of the query oracle (no
network activity can influence it), with no partial output. -/
theorem collect_stats_config_error (servers : List String) (samples : ℤ)
    (timeout sleep_between : ℚ)
    (h : samples < 1 ∨ timeout ≤ 0 ∨ sleep_between < 0) :
    ∀ q q2 : Nat → String → QueryOutcome,
      collect_stats q servers samples timeout sleep_between =
        collect_stats q2 servers samples timeout sleep_between ∧
      ∃ msg, collect_stats q servers samples timeout sleep_between =
        Except.error (CollectError.config msg) := by
  intro q q2
  unfold collect_stats
  by_cases h1 : samples < 1
  · rw [if_pos h1, if_pos h1]
    exact ⟨rfl, _, rfl⟩
  · rw [if_neg h1, if_neg h1]
    by_cases h2 : timeout ≤ 0
    · rw [if_pos h2, if_pos h2]
      exact ⟨rfl, _, rfl⟩
    · rw [if_neg h2, if_neg h2]
      have h3 : sleep_between < 0 := by
        rcases h with h | h | h
        · exact absurd h h1
        · exact absurd h h2
        · exact h
      rw [if_pos h3, if_pos h3]
      exact ⟨rfl, _, rfl⟩

/-- Witness for C7 at `samples = 0`, with two oracles that would behave very
differently if consulted. -/
theorem collect_stats_config_error_witness :
    collect_stats (fun _ _ => QueryOutcome.crash) ["a"] 0 1 0 =
      collect_stats (fun _ _ => QueryOutcome.ok ⟨0, 0⟩) ["a"] 0 1 0 ∧
    ∃ msg, collect_stats (fun _ _ => QueryOutcome.crash) ["a"] 0 1 0 =
      Except.error (CollectError.config msg) :=
  collect_stats_config_error ["a"] 0 1 0 (Or.inl (by norm_num))
    (fun _ _ => QueryOutcome.crash) (fun _ _ => QueryOutcome.ok ⟨0, 0⟩)

/-- C10: over distinct servers, every `Stats` entry emitted by a completed
`collect_stats` run satisfies `ok + fail = samples` (each round contributes
exactly one success or one counted failure per server) and `ok ≥ 1`. -/
theorem collect_stats_counts (q : Nat → String → QueryOutcome) (servers : List String)
    (samples : ℤ) (timeout sleep_between : ℚ) (L : List (Stats ℝ))
    (hnd : servers.Nodup)
    (hok : collect_stats q servers samples timeout sleep_between = Except.ok L) :
    ∀ stt ∈ L, (stt.ok : ℤ) + (stt.fail : ℤ) = samples ∧ 1 ≤ stt.ok := by
  have hs : 1 ≤ samples := by
    by_contra h
    unfold collect_stats at hok
    rw [if_pos (by omega)] at hok
    exact absurd hok (by simp)
  unfold collect_stats at hok
  rw [if_neg (not_lt.mpr hs)] at hok
  have ht : ¬timeout ≤ 0 := by
    intro h
    rw [if_pos h] at hok
    exact absurd hok (by simp)
  rw [if_neg ht] at hok
  have hsb : ¬sleep_between < 0 := by
    intro h
    rw [if_pos h] at hok
    exact absurd hok (by simp)
  rw [if_neg hsb] at hok
  cases hr : runRounds q servers samples.toNat 0 initState with
  | error e =>
    rw [hr] at hok
    exact absurd hok (by simp)
  | ok st2 =>
    rw [hr] at hok
    dsimp only at hok
    have hL : aggregateStats servers st2 = L := Except.ok.inj hok
    have hnc : ∀ j ∈ List.range' 0 samples.toNat, ∀ s ∈ servers, q j s ≠ .crash :=
      runRounds_ok_noCrash q servers samples.toNat 0 initState st2 hr
    obtain ⟨st2', hrun', hfails', hraw'⟩ :=
      runRounds_noCrash q servers samples.toNat 0 initState hnc
    rw [hr] at hrun'
    have hst : st2' = st2 := (Except.ok.inj hrun').symm
    subst hst
    intro stt hmem
    rw [← hL] at hmem
    unfold aggregateStats at hmem
    obtain ⟨s, hsmem, hsome⟩ := List.mem_filterMap.mp hmem
    by_cases h0 : (st2'.raw s).length = 0
    · rw [if_pos h0] at hsome
      exact absurd hsome (by simp)
    · rw [if_neg h0] at hsome
      have hstt := Option.some_inj.mp hsome
      have hraws : st2'.raw s = roundSucc q s 0 samples.toNat := by
        rw [hraw' hnd s hsmem]
        simp [initState]
      have hfailss : st2'.fails s = roundFails q s 0 samples.toNat := by
        rw [hfails' s]
        simp [initState, List.count_eq_one_of_mem hnd hsmem]
      have hokf : stt.ok = (st2'.raw s).length := by rw [← hstt]; rfl
      have hfailf : stt.fail = st2'.fails s := by rw [← hstt]; rfl
      have hsum : (roundSucc q s 0 samples.toNat).length +
          roundFails q s 0 samples.toNat = samples.toNat :=
        roundSucc_length_add q s samples.toNat 0 (fun j hj => hnc j hj s hsmem)
      constructor
      · rw [hokf, hfailf, hraws, hfailss]
        have : ((roundSucc q s 0 samples.toNat).length : ℤ) +
            (roundFails q s 0 samples.toNat : ℤ) = (samples.toNat : ℤ) := by
          exact_mod_cast congrArg (fun n : Nat => (n : ℤ)) hsum
        rw [this, Int.toNat_of_nonneg (by omega)]
      · rw [hokf]
        omega

/-- Witness for C10: one server, two rounds, one success and one classified
failure; the emitted entry has `ok = 1`, `fail = 1`, `ok + fail = samples`. -/
theorem collect_stats_counts_witness :
    ((mkStats "a" [⟨0, 0⟩] 1).ok : ℤ) + ((mkStats "a" [⟨0, 0⟩] 1).fail : ℤ) = 2 ∧
      1 ≤ (mkStats "a" [⟨0, 0⟩] 1).ok :=
  collect_stats_counts
    (fun i _ => if i = 0 then QueryOutcome.ok ⟨0, 0⟩ else QueryOutcome.err .timeout)
    ["a"] 2 1 0 [mkStats "a" [⟨0, 0⟩] 1] (by simp) rfl
    (mkStats "a" [⟨0, 0⟩] 1) (List.mem_singleton.mpr rfl)

/-! ### The duplicate copy `kntp-lib.py`

The repository ships a second, near-identical copy of the library.  Its
differences from `core.py`: `query_ntp` only checks the response length (no
mode/leap/stratum/originate validation), `collect_stats` only validates
`samples` and catches *all* exceptions (`except Exception`), `rank_servers`
does not validate the weights or the delay threshold, and `recommend` does
not validate the success-rate threshold. -/

/-- `grade` in `kntp-lib.py` (textually identical to the copy in `core.py`). -/
def grade_lib (score : ℚ) : String :=
  if score ≤ 5 then "A"
  else if score ≤ 10 then "B"
  else if score ≤ 20 then "C"
  else "D"

/-- One round of the `kntp-lib.py` sampling loop: `except Exception` counts
every failure — classified or not — as that server's failure. -/
def runRoundLib (q1 : String → QueryOutcome) : List String → RunState → RunState
  | [], st => st
  | s :: rest, st =>
    match q1 s with
    | .ok smp => runRoundLib q1 rest (recordOk st s smp)
    | _ => runRoundLib q1 rest (recordFail st s)

/-- The outer loop of `collect_stats` in `kntp-lib.py`. -/
def runRoundsLib (q : Nat → String → QueryOutcome) (servers : List String) :
    Nat → Nat → RunState → RunState
  | 0, _, st => st
  | Nat.succ n, i, st => runRoundsLib q servers n (i + 1) (runRoundLib (q i) servers st)

/-- `collect_stats` in `kntp-lib.py`: only `samples` is validated, and the
run never aborts (all exceptions are absorbed). -/
noncomputable def collect_stats_lib (q : Nat → String → QueryOutcome) (servers : List String)
    (samples : ℤ) (timeout sleep_between : ℚ) : Except CollectError (List (Stats ℝ)) :=
  if samples < 1 then .error (.config "samples must be >= 1")
  else .ok (aggregateStats servers (runRoundsLib q servers samples.toNat 0 initState))

/-- `rank_servers` in `kntp-lib.py`: no weight/threshold validation; the
candidate loop and sort are identical to `core.py`. -/
def rank_servers_lib (stats : List (Stats ℚ)) (base : String) (w_delay w_jitter : ℚ)
    (max_delay_ms : Option ℚ) (allow_base : Bool) : Except RankError (List Ranked) :=
  match stats.find? (fun x => x.server == base) with
  | none => .error .baseMissing
  | some base_stat =>
    .ok (List.insertionSort scoreLE
      (rankLoop base_stat base w_delay w_jitter max_delay_ms allow_base stats))

/-- `recommend` in `kntp-lib.py`: no threshold validation; the scan is
identical to `core.py`. -/
def recommend_lib (ranked : List Ranked) (base : String) (require_ok_rate : ℚ) :
    Option Ranked :=
  recommendScan base require_ok_rate ranked

/-- Counterexample to C9: on the all-zero 48-byte response, `core.py`'s query
rejects the packet (mode 0), while `kntp-lib.py`'s query accepts it and
returns a sample — the two copies do not fail under the same conditions. -/
theorem core_lib_divergence :
    (∃ e, query_ntp_pure zeros48 0 0 0 0 = Except.error e) ∧
    query_ntp_lib zeros48 0 0 =
      Except.ok { offset_ms := -2208988800000, delay_ms := 0 } := by
  constructor
  · exact ⟨"Invalid NTP mode in response", by decide⟩
  · have h8 : ntpWord zeros48 8 = 0 := by decide
    have h9 : ntpWord zeros48 9 = 0 := by decide
    have h10 : ntpWord zeros48 10 = 0 := by decide
    have h11 : ntpWord zeros48 11 = 0 := by decide
    unfold query_ntp_lib
    rw [if_neg (by decide)]
    dsimp only
    rw [h8, h9, h10, h11]
    simp only [Except.ok.injEq, Sample.mk.injEq]
    constructor <;> norm_num [_ntp_to_system, NTP_DELTA]

lemma runRoundLib_eq (q1 : String → QueryOutcome) (servers : List String) (st : RunState)
    (hnc : ∀ s ∈ servers, q1 s ≠ .crash) :
    runRound q1 servers st = Except.ok (runRoundLib q1 servers st) := by
  induction servers generalizing st with
  | nil => rfl
  | cons s0 rest ih =>
    have hncr : ∀ s ∈ rest, q1 s ≠ .crash := fun s hs => hnc s (List.mem_cons_of_mem s0 hs)
    cases hq : q1 s0 with
    | crash => exact absurd hq (hnc s0 (List.mem_cons_self s0 rest))
    | ok smp =>
      unfold runRound runRoundLib
      rw [hq]
      exact ih (recordOk st s0 smp) hncr
    | err e =>
      unfold runRound runRoundLib
      rw [hq]
      exact ih (recordFail st s0) hncr

lemma runRoundsLib_eq (q : Nat → String → QueryOutcome) (servers : List String)
    (n : Nat) : ∀ (i : Nat) (st : RunState),
    (∀ j ∈ List.range' i n, ∀ s ∈ servers, q j s ≠ .crash) →
    runRounds q servers n i st = Except.ok (runRoundsLib q servers n i st) := by
  induction n with
  | zero => intro i st _; rfl
  | succ n ih =>
    intro i st hnc
    have hhead : ∀ s ∈ servers, q i s ≠ .crash := fun s hs =>
      hnc i (by rw [List.range'_succ i n 1]; exact List.mem_cons_self _ _) s hs
    have htail : ∀ j ∈ List.range' (i + 1) n, ∀ s ∈ servers, q j s ≠ .crash := fun j hj =>
      hnc j (by rw [List.range'_succ i n 1]; exact List.mem_cons_of_mem _ hj)
    unfold runRounds runRoundsLib
    rw [runRoundLib_eq (q i) servers st hhead]
    exact ih (i + 1) (runRoundLib (q i) servers st) htail

/-- C9 amended: the two copies agree exactly on `grade`, and on `query_ntp`,
`rank_servers`, `recommend` and `collect_stats` whenever `core.py`'s
additional checks pass — a response that validates, non-negative weights, a
positive threshold, a success-rate threshold in `[0,1]`, a valid
timeout/sleep configuration and no unclassified attempt errors; outside
those conditions they differ (see the divergence counterexample). -/
theorem core_lib_agreement :
    (∀ s : ℚ, grade s = grade_lib s) ∧
    (∀ (data : List Nat) (t1 t4 : ℚ) (req_sec req_frac : Nat),
      _validate_ntp_response data req_sec req_frac = Except.ok () →
      query_ntp_pure data t1 t4 req_sec req_frac = query_ntp_lib data t1 t4) ∧
    (∀ (stats : List (Stats ℚ)) (base : String) (w_delay w_jitter : ℚ)
        (max_delay_ms : Option ℚ) (allow_base : Bool),
      0 ≤ w_delay → 0 ≤ w_jitter → (∀ m ∈ max_delay_ms, 0 < m) →
      rank_servers stats base w_delay w_jitter max_delay_ms allow_base =
        rank_servers_lib stats base w_delay w_jitter max_delay_ms allow_base) ∧
    (∀ (ranked : List Ranked) (base : String) (r : ℚ), 0 ≤ r → r ≤ 1 →
      recommend ranked base r = Except.ok (recommend_lib ranked base r)) ∧
    (∀ (q : Nat → String → QueryOutcome) (servers : List String) (samples : ℤ)
        (timeout sleep_between : ℚ), 0 < timeout → 0 ≤ sleep_between →
      (∀ i < samples.toNat, ∀ s ∈ servers, q i s ≠ .crash) →
      collect_stats q servers samples timeout sleep_between =
        collect_stats_lib q servers samples timeout sleep_between) := by
  refine ⟨fun s => rfl, ?_, ?_, ?_, ?_⟩
  · intro data t1 t4 req_sec req_frac hv
    have hlen : ¬data.length < 48 := by
      have := (validate_ok_iff data req_sec req_frac).mp hv
      tauto
    unfold query_ntp_pure query_ntp_lib
    rw [hv, if_neg hlen]
  · intro stats base w_delay w_jitter max_delay_ms allow_base hw hj hm
    have hbad : badMaxDelay max_delay_ms = false := by
      cases hmd : max_delay_ms with
      | none => rfl
      | some m =>
        have := hm m (by rw [hmd]; rfl)
        simp [badMaxDelay, not_le.mpr this]
    unfold rank_servers rank_servers_lib
    rw [if_neg (by push_neg; exact ⟨hw, hj⟩), if_neg (by simp [hbad])]
  · intro ranked base r h0 h1
    unfold recommend recommend_lib
    rw [if_neg (by push_neg; exact ⟨h0, h1⟩)]
  · intro q servers samples timeout sleep_between ht hsb hnc
    unfold collect_stats collect_stats_lib
    by_cases h1 : samples < 1
    · rw [if_pos h1, if_pos h1]
    · rw [if_neg h1, if_neg h1, if_neg (not_le.mpr ht), if_neg (not_lt.mpr hsb)]
      rw [runRoundsLib_eq q servers samples.toNat 0 initState
        (by
          intro j hj s hs'
          have := List.mem_range'_1.mp hj
          exact hnc j (by omega) s hs')]

/-- Witness for C9's amended agreement at concrete inputs: a score, a valid
response, a ranked list with threshold 0.8, and a crash-free sampling run. -/
theorem core_lib_agreement_witness :
    grade 7 = grade_lib 7 ∧
    query_ntp_pure validData 0 0 0 0 = query_ntp_lib validData 0 0 ∧
    recommend recommendExample "base" (4/5) =
      Except.ok (recommend_lib recommendExample "base" (4/5)) ∧
    collect_stats (fun _ _ => QueryOutcome.ok ⟨0, 0⟩) ["a"] 1 1 0 =
      collect_stats_lib (fun _ _ => QueryOutcome.ok ⟨0, 0⟩) ["a"] 1 1 0 :=
  ⟨core_lib_agreement.1 7,
   core_lib_agreement.2.1 validData 0 0 0 0 (by decide),
   core_lib_agreement.2.2.2.1 recommendExample "base" (4/5) (by norm_num) (by norm_num),
   core_lib_agreement.2.2.2.2 (fun _ _ => QueryOutcome.ok ⟨0, 0⟩) ["a"] 1 1 0
     (by norm_num) (by norm_num) (fun i _ s _ => by simp)⟩

end Kntp
